import Mathlib

/-
Verification of the message-debouncing core of pocketflow-chat (src/main.py).

The program buffers inbound chat messages per chat key in a Redis list
(newest-first, via LPUSH), decides per message whether to proceed, wait or
stop ("prosseguir" / "esperar"), and on proceed drains the buffer and
consolidates the fragments into one payload.

Shallow embedding conventions:
  - Redis reads are injected as values: a store read is
    `Except Unit (List (Option Message))`, where `Except.error` models a
    raised redis exception and each `Option Message` models one raw list
    entry together with the outcome of `Message(**json.loads(entry))`
    (`none` = the parse raises).
  - `datetime` instants are rationals (seconds); `parse_timestamp` is an
    injected partial function `pts : String → Option ℚ` (`none` = the
    dateutil parse raises).
  - Python's stable `list.sort(key=...)` is modelled by decorating each
    message with its parsed timestamp key and running `List.insertionSort`
    on the keys, which is stable.
-/

namespace Chat

/-- Image content variant of a message (class ImageContent, src/main.py). -/
structure ImageContent where
  image_id : String
  content_url : String
deriving DecidableEq

/-- The `content` field of a Message: Python `str | ImageContent`. -/
inductive MsgContent
  | text (s : String)
  | image (ic : ImageContent)
deriving DecidableEq

/-- Internal message model (class Message, src/main.py). -/
structure Message where
  message_id : String
  chat_id : String
  content_type : String
  content : MsgContent
  timestamp : String
  event : String
  user_name : String
deriving DecidableEq

/-- Webhook key object (class MessageKey, src/main.py). -/
structure MessageKey where
  remoteJid : String
  fromMe : Bool
  id : String
deriving DecidableEq

/-- Device list metadata of the webhook (class DeviceListMetadata, src/main.py). -/
structure DeviceListMetadata where
  senderKeyHash : String
  senderTimestamp : String
  recipientKeyHash : String
  recipientTimestamp : String
deriving DecidableEq

/-- Message context info of the webhook (class MessageContextInfo, src/main.py). -/
structure MessageContextInfo where
  deviceListMetadata : DeviceListMetadata
  deviceListMetadataVersion : Int
  messageSecret : String
deriving DecidableEq

/-- Webhook message body (class WhatsAppMessage, src/main.py). -/
structure WhatsAppMessage where
  conversation : Option String
  messageContextInfo : Option MessageContextInfo
deriving DecidableEq

/-- Webhook data object (class WebhookData, src/main.py). -/
structure WebhookData where
  key : MessageKey
  pushName : String
  message : WhatsAppMessage
  messageType : String
  messageTimestamp : Int
  instanceId : String
  source : String
deriving DecidableEq

/-- Full webhook payload (class WebhookPayload, src/main.py). -/
structure WebhookPayload where
  event : String
  «instance» : String
  data : WebhookData
  destination : String
  date_time : String
  sender : String
  server_url : String
  apikey : String
deriving DecidableEq

/-- Flow decision enum of the spec: {PROCEED, WAIT, SUPERSEDED}; the source
returns the strings "prosseguir" / "esperar" for the first two. -/
inductive Flow
  | proceed
  | wait
  | superseded
deriving DecidableEq

/-- The debounce window: the source compares `time_diff > 3` (seconds). -/
def DEBOUNCE_WINDOW : ℚ := 3

/-- Maps the webhook payload to the internal Message
(map_webhook_to_message, src/main.py lines 78-90).  Python
`webhook.data.message.conversation or ""` yields the conversation text or
the empty string; the result content is always a string. -/
def map_webhook_to_message (webhook : WebhookPayload) : Message :=
  { message_id := webhook.data.key.id
    chat_id := webhook.data.key.remoteJid
    content_type := webhook.data.messageType
    content := MsgContent.text (webhook.data.message.conversation.getD "")
    timestamp := webhook.date_time
    event := webhook.event
    user_name := webhook.data.pushName }

/-- Parsing every raw buffer entry in order
(`[Message(**json.loads(msg)) for msg in buffer_messages]`): the first
failing entry raises, modelled as `none`. -/
def parseAll : List (Option Message) → Option (List Message)
  | [] => some []
  | none :: _ => none
  | some m :: rest => (parseAll rest).map (fun ms => m :: ms)

/-- The arbiter (check_message_flow, src/main.py lines 140-172).
`store` is the result of `lrange chat:{chat_id} 0 -1`; any raised
exception (store read, entry parse, timestamp parse) falls into the
`except` clause which returns "prosseguir". The body never reads
`current_message`. -/
def check_message_flow (pts : String → Option ℚ) (chat_id : String)
    (store : Except Unit (List (Option Message)))
    (current_message : Message) (now : ℚ) : Flow :=
  match store with
  | Except.error _ => Flow.proceed
  | Except.ok buffer_messages =>
    if buffer_messages = [] then Flow.proceed
    else
      match parseAll buffer_messages with
      | none => Flow.proceed
      | some messages =>
        match messages.head? with
        | none => Flow.proceed
        | some last_message =>
          match pts last_message.timestamp with
          | none => Flow.proceed
          | some last_message_ts =>
            if now - last_message_ts > DEBOUNCE_WINDOW then Flow.proceed
            else Flow.wait

/-- Timestamp-key order used by the consolidator sort: on decorated pairs
(message, parsed timestamp), compare the parsed timestamps. -/
def tsLE (p q : Message × ℚ) : Prop := p.2 ≤ q.2

instance : DecidableRel tsLE :=
  fun p q => inferInstanceAs (Decidable (p.2 ≤ q.2))

instance : IsTotal (Message × ℚ) tsLE :=
  ⟨fun p q => le_total p.2 q.2⟩

instance : IsTrans (Message × ℚ) tsLE :=
  ⟨fun _ _ _ h1 h2 => le_trans h1 h2⟩

/-- Decorates each message with its parsed timestamp, in order; the first
timestamp that fails to parse raises, modelled as `none`.  This is the key
computation of `messages.sort(key=lambda x: parse_timestamp(x.timestamp))`. -/
def keyMsgs (pts : String → Option ℚ) : List Message → Option (List (Message × ℚ))
  | [] => some []
  | m :: rest =>
    match pts m.timestamp with
    | none => none
    | some q => (keyMsgs pts rest).map (fun ps => (m, q) :: ps)

/-- The stable ascending sort by timestamp key: Python `list.sort` is a
stable sort, uniquely determined by sortedness plus stability, so it is
modelled by insertion sort on the decorated pairs. -/
def sortKeyed (keyed : List (Message × ℚ)) : List (Message × ℚ) :=
  List.insertionSort tsLE keyed

/-- Renders one message fragment (src/main.py lines 115-119): text content
passes through verbatim, image content becomes `[Image: {image_id}]`. -/
def renderContent (m : Message) : String :=
  match m.content with
  | MsgContent.text s => s
  | MsgContent.image ic => "[Image: " ++ ic.image_id ++ "]"

/-- Character-level quote escaping: `formatted_content.replace('"', '\x60')`
replaces every double-quote character, which for a one-character pattern is
the character map below. -/
def escChar (c : Char) : Char :=
  if c = '\"' then Char.ofNat 96 else c

/-- Applies `escChar` to every character of a string. -/
def escapeQuotes (s : String) : String :=
  String.mk (s.data.map escChar)

/-- Python `"\n".join(parts)` (src/main.py line 121). -/
def joinNl : List String → String
  | [] => ""
  | [s] => s
  | s :: t :: rest => s ++ "\n" ++ joinNl (t :: rest)

/-- The payload saved to the sink: fragments of the sorted messages joined
by newline, with quotes escaped afterwards. -/
def renderPayload (sorted : List Message) : String :=
  escapeQuotes (joinNl (sorted.map renderContent))

/-- Error outcomes of process_buffer_messages: the explicit
`ValueError("Buffer vazio")`, a json/model parse failure, or a timestamp
parse failure inside the sort key; all are re-raised to the caller. -/
inductive PErr
  | emptyBuffer
  | parseError
  | timestampError
deriving DecidableEq

/-- The consolidator (process_buffer_messages, src/main.py lines 96-138):
drains the buffer (the drained entries are the input `raw`), fails on an
empty buffer, parses the entries, sorts them ascending by parsed timestamp
(stable), renders and joins the fragments, escapes quotes, and returns the
payload together with `messages[-1]`, the chronologically last message. -/
def process_buffer_messages (pts : String → Option ℚ)
    (raw : List (Option Message)) : Except PErr (String × Message) :=
  if raw = [] then Except.error PErr.emptyBuffer
  else
    match parseAll raw with
    | none => Except.error PErr.parseError
    | some msgs =>
      match keyMsgs pts msgs with
      | none => Except.error PErr.timestampError
      | some keyed =>
        match (sortKeyed keyed).getLast? with
        | none => Except.error PErr.emptyBuffer
        | some lastp =>
          Except.ok (renderPayload ((sortKeyed keyed).map Prod.fst), lastp.1)

/-- parseAll preserves the number of entries when it succeeds. -/
theorem parseAll_length {raw : List (Option Message)} {msgs : List Message}
    (h : parseAll raw = some msgs) : msgs.length = raw.length := by
  induction raw generalizing msgs with
  | nil =>
    simp [parseAll] at h
    subst h
    rfl
  | cons o rest ih =>
    cases o with
    | none => simp [parseAll] at h
    | some m =>
      simp only [parseAll, Option.map_eq_some'] at h
      obtain ⟨ms, hms, rfl⟩ := h
      simp [ih hms]

/-- keyMsgs preserves the number of messages when it succeeds. -/
theorem keyMsgs_length {pts : String → Option ℚ} {msgs : List Message}
    {keyed : List (Message × ℚ)}
    (h : keyMsgs pts msgs = some keyed) : keyed.length = msgs.length := by
  induction msgs generalizing keyed with
  | nil =>
    simp [keyMsgs] at h
    subst h
    rfl
  | cons m rest ih =>
    simp only [keyMsgs] at h
    cases hp : pts m.timestamp with
    | none => rw [hp] at h; simp at h
    | some q =>
      rw [hp] at h
      simp only [Option.map_eq_some'] at h
      obtain ⟨ps, hps, rfl⟩ := h
      simp [ih hps]

/-- keyMsgs decorates without reordering: projecting the keys away gives
back the original message list. -/
theorem keyMsgs_map_fst {pts : String → Option ℚ} {msgs : List Message}
    {keyed : List (Message × ℚ)}
    (h : keyMsgs pts msgs = some keyed) : keyed.map Prod.fst = msgs := by
  induction msgs generalizing keyed with
  | nil =>
    simp [keyMsgs] at h
    subst h
    rfl
  | cons m rest ih =>
    simp only [keyMsgs] at h
    cases hp : pts m.timestamp with
    | none => rw [hp] at h; simp at h
    | some q =>
      rw [hp] at h
      simp only [Option.map_eq_some'] at h
      obtain ⟨ps, hps, rfl⟩ := h
      simp [ih hps]

/-- Inserting a pair into a list touches, for any fixed key value, only the
entries carrying that key, and only by putting the new pair first among
them when it carries the key itself. -/
theorem filter_key_orderedInsert (k : ℚ) (a : Message × ℚ)
    (l : List (Message × ℚ)) :
    (List.orderedInsert tsLE a l).filter (fun p => decide (p.2 = k))
      = if a.2 = k then a :: l.filter (fun p => decide (p.2 = k))
        else l.filter (fun p => decide (p.2 = k)) := by
  induction l with
  | nil =>
    by_cases hk : a.2 = k <;> simp [List.orderedInsert, List.filter, hk]
  | cons b l ih =>
    by_cases hab : tsLE a b
    · rw [List.orderedInsert_of_le _ _ hab]
      by_cases hk : a.2 = k <;> simp [List.filter, hk]
    · have hba : b.2 < a.2 := lt_of_not_le hab
      simp only [List.orderedInsert, if_neg hab]
      by_cases hbk : b.2 = k
      · have hak : ¬ a.2 = k := by
          intro hak
          exact absurd (hak.trans hbk.symm) (ne_of_gt hba)
        simp [List.filter, hbk, hak, ih]
      · by_cases hak : a.2 = k <;> simp [List.filter, hbk, hak, ih]

/-- Stability of the consolidator sort: for every key value, the entries
carrying that key appear in the sorted list in their original order. -/
theorem filter_key_sortKeyed (k : ℚ) (l : List (Message × ℚ)) :
    (sortKeyed l).filter (fun p => decide (p.2 = k))
      = l.filter (fun p => decide (p.2 = k)) := by
  induction l with
  | nil => rfl
  | cons a l ih =>
    simp only [sortKeyed] at ih ⊢
    show (List.orderedInsert tsLE a (List.insertionSort tsLE l)).filter _ = _
    rw [filter_key_orderedInsert]
    by_cases hak : a.2 = k <;> simp [List.filter, hak, ih]

/-- In a list sorted by timestamp key, every entry's key is at most the
last entry's key. -/
theorem sorted_le_getLast {l : List (Message × ℚ)} {x lastp : Message × ℚ}
    (hs : List.Sorted tsLE l) (hx : x ∈ l) (hl : l.getLast? = some lastp) :
    x.2 ≤ lastp.2 := by
  induction l with
  | nil => cases hx
  | cons a t ih =>
    cases t with
    | nil =>
      simp at hx hl
      subst hx
      subst hl
      exact le_refl _
    | cons b t2 =>
      rw [List.getLast?_cons_cons] at hl
      rcases List.mem_cons.mp hx with rfl | hx2
      · have hmem : lastp ∈ b :: t2 := List.mem_of_mem_getLast? hl
        exact (List.sorted_cons.mp hs).1 lastp hmem
      · exact ih (List.sorted_cons.mp hs).2 hx2 hl

/-- A nonempty list has a last element. -/
theorem getLast?_of_ne_nil {α : Type} {l : List α} (h : l ≠ []) :
    ∃ a, l.getLast? = some a := by
  cases hl : l.getLast? with
  | none => exact absurd (List.getLast?_eq_none_iff.mp hl) h
  | some a => exact ⟨a, rfl⟩

/-- Quote escaping distributes over string concatenation. -/
theorem escapeQuotes_append (a b : String) :
    escapeQuotes (a ++ b) = escapeQuotes a ++ escapeQuotes b := by
  cases a with
  | mk da =>
    cases b with
    | mk db =>
      show String.mk ((da ++ db).map escChar)
        = String.mk (da.map escChar ++ db.map escChar)
      rw [List.map_append]

/-- The newline separator contains no quote, so escaping leaves it alone. -/
theorem escapeQuotes_newline : escapeQuotes "\n" = "\n" := by decide

/-- Escaping the joined payload equals joining the escaped fragments:
the defensive `.replace` applied after the join acts on each fragment. -/
theorem escapeQuotes_joinNl (parts : List String) :
    escapeQuotes (joinNl parts) = joinNl (parts.map escapeQuotes) := by
  induction parts with
  | nil => rfl
  | cons s rest ih =>
    cases rest with
    | nil => rfl
    | cons t r2 =>
      show escapeQuotes (s ++ "\n" ++ joinNl (t :: r2))
        = escapeQuotes s ++ "\n" ++ joinNl ((t :: r2).map escapeQuotes)
      rw [escapeQuotes_append, escapeQuotes_append, escapeQuotes_newline, ih]

/-- Observable steps of one send_message request (src/main.py lines
178-207): the lpush, each check_message_flow call, the asyncio.sleep(3)
suspension, and the process_buffer_messages call. -/
inductive Step
  | push
  | arbitrate
  | sleepStep
  | consolidate
deriving DecidableEq

/-- The per-request control flow of send_message (src/main.py lines
178-207): push, arbitrate; if the status is "esperar", sleep once and
arbitrate again with a fresh store read and clock; finally consolidate
exactly when the latest status is "prosseguir".  `store1`/`now1` are the
read and clock of the first arbitration, `store2`/`now2` of the second. -/
def send_message_trace (pts : String → Option ℚ) (chat_id : String)
    (message : Message)
    (store1 store2 : Except Unit (List (Option Message)))
    (now1 now2 : ℚ) : List Step :=
  let d1 := check_message_flow pts chat_id store1 message now1
  if d1 = Flow.wait then
    let d2 := check_message_flow pts chat_id store2 message now2
    Step.push :: Step.arbitrate :: Step.sleepStep :: Step.arbitrate ::
      (if d2 = Flow.proceed then [Step.consolidate] else [])
  else
    Step.push :: Step.arbitrate ::
      (if d1 = Flow.proceed then [Step.consolidate] else [])

/-- Redis LRANGE on one key: 0-based indices, a negative index counts from
the end (-1 is the last element), the stop index is inclusive, and
out-of-range indices are clamped. -/
def lrange {α : Type} (l : List α) (start stop : Int) : List α :=
  let n : Int := l.length
  let s : Int := if start < 0 then max (n + start) 0 else start
  let e : Int := min (if stop < 0 then n + stop else stop) (n - 1)
  if s > e then [] else (l.drop s.toNat).take (e - s + 1).toNat

/-- The read endpoint (get_messages, src/main.py lines 211-217): reads
`lrange chat:{chat_id} 0 (limit - 1)` and parses each entry; a parse
failure raises (HTTP 500), modelled as `Except.error`. -/
def get_messages (raw : List (Option Message)) (limit : Int) :
    Except Unit (List Message) :=
  match parseAll (lrange raw 0 (limit - 1)) with
  | none => Except.error ()
  | some msgs => Except.ok msgs

/-- Redis LRANGE over the whole key, as used by the drain. -/
def redisLrangeAll {α : Type} (s : List α) : List α := s

/-- Redis DEL: removes the key, leaving an empty list. -/
def redisDelete {α : Type} (s : List α) : List α := []

/-- Redis LPUSH: prepends an entry. -/
def redisLpush {α : Type} (m : α) (s : List α) : List α := m :: s

/-- The drain of process_buffer_messages is two separate store commands
(src/main.py lines 103-104): an lrange read followed by a delete of the
whole key.  This function runs the interleaving in which a concurrent
send_message lpush for the same chat lands between those two commands,
and returns (what the drain read, the buffer left after the delete). -/
def drainRaceRun (s0 : List (Option Message)) (m : Message) :
    List (Option Message) × List (Option Message) :=
  let drained := redisLrangeAll s0
  let s1 := redisLpush (some m) s0
  let s2 := redisDelete s1
  (drained, s2)

/-- True when the message content is the text variant. -/
def isTextMsg (m : Message) : Bool :=
  match m.content with
  | MsgContent.text _ => true
  | MsgContent.image _ => false

/-- Modelled from the spec: the Message invariant "content's shape must
match contentKind", with contentKind ∈ {text, image} — an image message
carries an image descriptor and a non-image message carries a text string.
The source states no such check; this predicate transcribes the spec's
words for comparison against map_webhook_to_message. -/
def shapeMatchesKind (m : Message) : Bool :=
  match m.content with
  | MsgContent.image _ => m.content_type == "image"
  | MsgContent.text _ => m.content_type != "image"

/-- Concrete injected timestamp parser used by the witnesses: a small
table of parsable timestamp strings. -/
def ptsDemo (s : String) : Option ℚ :=
  if s = "t0" then some 0
  else if s = "t1" then some 1
  else if s = "t2" then some 2
  else none

/-- Demo message pushed first (oldest), timestamp 0. -/
def M1demo : Message :=
  { message_id := "m1"
    chat_id := "c"
    content_type := "conversation"
    content := MsgContent.text "hello"
    timestamp := "t0"
    event := "messages.upsert"
    user_name := "u1" }

/-- Demo message pushed second (newest), timestamp 1. -/
def M2demo : Message :=
  { message_id := "m2"
    chat_id := "c"
    content_type := "conversation"
    content := MsgContent.text "world"
    timestamp := "t1"
    event := "messages.upsert"
    user_name := "u1" }

/-- Demo message whose timestamp string is not parsable by ptsDemo. -/
def MbadDemo : Message :=
  { message_id := "m3"
    chat_id := "c"
    content_type := "conversation"
    content := MsgContent.text "late"
    timestamp := "bad"
    event := "messages.upsert"
    user_name := "u1" }

/-- Demo message with timestamp 2, used for three-way ordering. -/
def M3demo : Message :=
  { message_id := "m4"
    chat_id := "c"
    content_type := "conversation"
    content := MsgContent.text "bye \"all\""
    timestamp := "t2"
    event := "messages.upsert"
    user_name := "u1" }

/-- Demo webhook payload whose messageType is "image". -/
def webhookImageDemo : WebhookPayload :=
  { event := "messages.upsert"
    «instance» := "inst1"
    data :=
      { key := { remoteJid := "chat1", fromMe := false, id := "w1" }
        pushName := "u1"
        message := { conversation := none, messageContextInfo := none }
        messageType := "image"
        messageTimestamp := 0
        instanceId := "inst1"
        source := "android" }
    destination := "d"
    date_time := "t0"
    sender := "s"
    server_url := "u"
    apikey := "k" }

/-- Claim C2: for every chat key, incoming message and clock value now, the
arbiter returns PROCEED on an empty buffer read; on a non-empty read whose
entries parse, with newest the front (most recently pushed) message whose
timestamp parses to ts, it returns PROCEED when now - ts exceeds the
3-second debounce window and WAIT when it does not. -/
theorem decide_timing_rule (pts : String → Option ℚ) (chat : String)
    (cur : Message) (now : ℚ) (raw : List (Option Message))
    (msgs : List Message) (newest : Message) (ts : ℚ)
    (hraw : raw ≠ []) (hparse : parseAll raw = some msgs)
    (hnewest : msgs.head? = some newest)
    (hts : pts newest.timestamp = some ts) :
    check_message_flow pts chat (Except.ok []) cur now = Flow.proceed ∧
    check_message_flow pts chat (Except.ok raw) cur now
      = (if now - ts > DEBOUNCE_WINDOW then Flow.proceed else Flow.wait) := by
  constructor
  · rfl
  · simp [check_message_flow, hraw, hparse, hnewest, hts]

/-- Witness for decide_timing_rule at a one-entry buffer read 5 seconds
after the buffered message. -/
theorem decide_timing_rule_witness :
    ([some M1demo] : List (Option Message)) ≠ [] ∧
    parseAll [some M1demo] = some [M1demo] ∧
    ([M1demo] : List Message).head? = some M1demo ∧
    ptsDemo M1demo.timestamp = some 0 ∧
    check_message_flow ptsDemo "c" (Except.ok []) M1demo 5 = Flow.proceed ∧
    check_message_flow ptsDemo "c" (Except.ok [some M1demo]) M1demo 5
      = (if (5:ℚ) - 0 > DEBOUNCE_WINDOW then Flow.proceed else Flow.wait) := by
  have h := decide_timing_rule ptsDemo "c" M1demo 5 [some M1demo] [M1demo]
    M1demo 0 (by decide) (by decide) (by decide) (by decide)
  exact ⟨by decide, by decide, by decide, by decide, h.1, h.2⟩

/-- Claim C1 counterexample: messages M1 (older, id "m1") and M2 (newer,
id "m2") are both buffered for the same chat, the buffer read is
non-empty, the oldest (last) buffered entry is M1 whose id differs from
the incoming message M2's id — yet the arbiter returns WAIT at now = 2 and
PROCEED at now = 100, never SUPERSEDED. -/
theorem superseded_counterexample_c1 :
    ([some M2demo, some M1demo] : List (Option Message)).getLast?
      = some (some M1demo) ∧
    M1demo.message_id ≠ M2demo.message_id ∧
    check_message_flow ptsDemo "c" (Except.ok [some M2demo, some M1demo])
      M2demo 2 = Flow.wait ∧
    check_message_flow ptsDemo "c" (Except.ok [some M2demo, some M1demo])
      M2demo 100 = Flow.proceed := by
  refine ⟨by decide, by decide, ?_, ?_⟩
  · simp +decide [check_message_flow, parseAll, ptsDemo, M1demo, M2demo,
      DEBOUNCE_WINDOW]
    norm_num
  · simp +decide [check_message_flow, parseAll, ptsDemo, M1demo, M2demo,
      DEBOUNCE_WINDOW]
    norm_num

/-- Claim C1 as amended: for a non-empty buffer read whose entries parse,
even when the oldest (last, earliest-pushed) buffered message's id differs
from the incoming message's id, the arbiter never returns SUPERSEDED — it
follows the timing rule on the newest buffered message, so every racing
caller whose window has elapsed proceeds to consolidation. -/
theorem decide_never_superseded (pts : String → Option ℚ) (chat : String)
    (cur : Message) (now : ℚ) (raw : List (Option Message))
    (msgs : List Message) (newest oldest : Message) (ts : ℚ)
    (hraw : raw ≠ []) (hparse : parseAll raw = some msgs)
    (hnewest : msgs.head? = some newest)
    (holdest : msgs.getLast? = some oldest)
    (hts : pts newest.timestamp = some ts)
    (hid : oldest.message_id ≠ cur.message_id) :
    check_message_flow pts chat (Except.ok raw) cur now ≠ Flow.superseded ∧
    check_message_flow pts chat (Except.ok raw) cur now
      = (if now - ts > DEBOUNCE_WINDOW then Flow.proceed else Flow.wait) := by
  have h2 : check_message_flow pts chat (Except.ok raw) cur now
      = (if now - ts > DEBOUNCE_WINDOW then Flow.proceed else Flow.wait) := by
    simp [check_message_flow, hraw, hparse, hnewest, hts]
  refine ⟨?_, h2⟩
  rw [h2]
  by_cases hw : now - ts > DEBOUNCE_WINDOW <;> simp [hw]

/-- Witness for decide_never_superseded: both demo messages buffered,
incoming M2 whose id differs from the oldest entry M1's id. -/
theorem decide_never_superseded_witness :
    ([some M2demo, some M1demo] : List (Option Message)) ≠ [] ∧
    parseAll [some M2demo, some M1demo] = some [M2demo, M1demo] ∧
    ([M2demo, M1demo] : List Message).head? = some M2demo ∧
    ([M2demo, M1demo] : List Message).getLast? = some M1demo ∧
    ptsDemo M2demo.timestamp = some 1 ∧
    M1demo.message_id ≠ M2demo.message_id ∧
    check_message_flow ptsDemo "c" (Except.ok [some M2demo, some M1demo])
      M2demo 2 ≠ Flow.superseded := by
  have h := decide_never_superseded ptsDemo "c" M2demo 2
    [some M2demo, some M1demo] [M2demo, M1demo] M2demo M1demo 1
    (by decide) (by decide) (by decide) (by decide) (by decide) (by decide)
  exact ⟨by decide, by decide, by decide, by decide, by decide, by decide, h.1⟩

/-- Claim C7: every internal fault of the arbiter — a store read failure,
a buffered entry that fails to parse, or a buffered timestamp that fails
to parse — resolves to PROCEED (fail-open). -/
theorem arbitration_fail_open (pts : String → Option ℚ) (chat : String)
    (cur : Message) (now : ℚ) (e : Unit)
    (raw2 raw3 : List (Option Message)) (msgs3 : List Message)
    (newest3 : Message) :
    check_message_flow pts chat (Except.error e) cur now = Flow.proceed ∧
    (parseAll raw2 = none →
      check_message_flow pts chat (Except.ok raw2) cur now = Flow.proceed) ∧
    (parseAll raw3 = some msgs3 → msgs3.head? = some newest3 →
      pts newest3.timestamp = none →
      check_message_flow pts chat (Except.ok raw3) cur now = Flow.proceed) := by
  refine ⟨rfl, ?_, ?_⟩
  · intro h2
    by_cases hr : raw2 = []
    · subst hr
      simp [parseAll] at h2
    · simp [check_message_flow, hr, h2]
  · intro hp hh hts
    by_cases hr : raw3 = []
    · subst hr
      simp [parseAll] at hp
      subst hp
      simp at hh
    · simp [check_message_flow, hr, hp, hh, hts]

/-- Witness for arbitration_fail_open: a store error, a buffer entry whose
json fails to parse, and a buffered message with unparsable timestamp. -/
theorem arbitration_fail_open_witness :
    parseAll [none] = none ∧
    parseAll [some MbadDemo] = some [MbadDemo] ∧
    ([MbadDemo] : List Message).head? = some MbadDemo ∧
    ptsDemo MbadDemo.timestamp = none ∧
    check_message_flow ptsDemo "c" (Except.error ()) M1demo 0 = Flow.proceed ∧
    check_message_flow ptsDemo "c" (Except.ok [none]) M1demo 0 = Flow.proceed ∧
    check_message_flow ptsDemo "c" (Except.ok [some MbadDemo]) M1demo 0
      = Flow.proceed := by
  have h := arbitration_fail_open ptsDemo "c" M1demo 0 ()
    [none] [some MbadDemo] [MbadDemo] MbadDemo
  exact ⟨by decide, by decide, by decide, by decide, h.1,
    h.2.1 (by decide), h.2.2 (by decide) (by decide) (by decide)⟩

/-- Claim C9: the arbiter's decision is independent of the incoming
message — check_message_flow never reads its current_message argument, so
any two incoming messages yield the same decision on the same store read
and clock. -/
theorem decide_ignores_incoming_message (pts : String → Option ℚ)
    (chat : String) (store : Except Unit (List (Option Message)))
    (m1 m2 : Message) (now : ℚ) :
    check_message_flow pts chat store m1 now
      = check_message_flow pts chat store m2 now := rfl

/-- Claim C3: for every non-empty drained buffer whose entries and
timestamps parse, consolidation succeeds; the fragment order is the
decorated list sorted ascending by parsed timestamp (List.Sorted), the
sort is a permutation that is stable (entries of any fixed key keep their
original relative order), and the returned representative message is the
chronologically last one (the last of the sorted list, whose key bounds
every buffered key from above). -/
theorem consolidation_sorted_stable (pts : String → Option ℚ)
    (raw : List (Option Message)) (msgs : List Message)
    (keyed : List (Message × ℚ))
    (hraw : raw ≠ []) (hparse : parseAll raw = some msgs)
    (hkey : keyMsgs pts msgs = some keyed) :
    ∃ lastp : Message × ℚ,
      (sortKeyed keyed).getLast? = some lastp ∧
      process_buffer_messages pts raw
        = Except.ok (renderPayload ((sortKeyed keyed).map Prod.fst), lastp.1) ∧
      List.Sorted tsLE (sortKeyed keyed) ∧
      (sortKeyed keyed).Perm keyed ∧
      (∀ k : ℚ, (sortKeyed keyed).filter (fun p => decide (p.2 = k))
          = keyed.filter (fun p => decide (p.2 = k))) ∧
      (∀ p ∈ keyed, p.2 ≤ lastp.2) := by
  have hkne : keyed ≠ [] := by
    intro h
    subst h
    have h1 := keyMsgs_length hkey
    have h2 := parseAll_length hparse
    cases raw with
    | nil => exact hraw rfl
    | cons a t =>
      rw [h2] at h1
      simp at h1
  have hsne : sortKeyed keyed ≠ [] := by
    intro h
    have hl := List.length_insertionSort tsLE keyed
    rw [show List.insertionSort tsLE keyed = sortKeyed keyed from rfl, h] at hl
    exact hkne (List.length_eq_zero.mp hl.symm)
  obtain ⟨lastp, hlast⟩ := getLast?_of_ne_nil hsne
  refine ⟨lastp, hlast, ?_, ?_, ?_, ?_, ?_⟩
  · simp [process_buffer_messages, hraw, hparse, hkey, hlast]
  · exact List.sorted_insertionSort tsLE keyed
  · exact List.perm_insertionSort tsLE keyed
  · exact fun k => filter_key_sortKeyed k keyed
  · intro p hp
    have hp2 : p ∈ sortKeyed keyed :=
      ((List.perm_insertionSort tsLE keyed).mem_iff).mpr hp
    exact sorted_le_getLast (List.sorted_insertionSort tsLE keyed) hp2 hlast

/-- Witness for consolidation_sorted_stable: three messages with
timestamps 0 < 1 < 2 drained in the scrambled push order 1, 2, 0. -/
theorem consolidation_sorted_stable_witness :
    ([some M2demo, some M3demo, some M1demo] : List (Option Message)) ≠ [] ∧
    parseAll [some M2demo, some M3demo, some M1demo]
      = some [M2demo, M3demo, M1demo] ∧
    keyMsgs ptsDemo [M2demo, M3demo, M1demo]
      = some [(M2demo, 1), (M3demo, 2), (M1demo, 0)] ∧
    (∃ lastp : Message × ℚ,
      (sortKeyed [(M2demo, 1), (M3demo, 2), (M1demo, 0)]).getLast?
        = some lastp ∧
      process_buffer_messages ptsDemo [some M2demo, some M3demo, some M1demo]
        = Except.ok
            (renderPayload
              ((sortKeyed [(M2demo, 1), (M3demo, 2), (M1demo, 0)]).map
                Prod.fst),
             lastp.1) ∧
      List.Sorted tsLE (sortKeyed [(M2demo, 1), (M3demo, 2), (M1demo, 0)]) ∧
      (sortKeyed [(M2demo, 1), (M3demo, 2), (M1demo, 0)]).Perm
        [(M2demo, 1), (M3demo, 2), (M1demo, 0)] ∧
      (∀ k : ℚ,
        (sortKeyed [(M2demo, 1), (M3demo, 2), (M1demo, 0)]).filter
            (fun p => decide (p.2 = k))
          = ([(M2demo, 1), (M3demo, 2), (M1demo, 0)]
              : List (Message × ℚ)).filter (fun p => decide (p.2 = k))) ∧
      (∀ p ∈ ([(M2demo, 1), (M3demo, 2), (M1demo, 0)] : List (Message × ℚ)),
        p.2 ≤ lastp.2)) := by
  refine ⟨by decide, by decide, by decide, ?_⟩
  exact consolidation_sorted_stable ptsDemo
    [some M2demo, some M3demo, some M1demo] [M2demo, M3demo, M1demo]
    [(M2demo, 1), (M3demo, 2), (M1demo, 0)]
    (by decide) (by decide) (by decide)

/-- Claim C4: for a drained buffer of N text messages (entries and
timestamps parsing), consolidation produces exactly N fragments — the
sorted messages' contents — joined by single newline separators with every
embedded double quote replaced by a backtick, and an image message renders
as the bracketed placeholder naming its image id. -/
theorem consolidation_round_trip (pts : String → Option ℚ)
    (raw : List (Option Message)) (msgs : List Message)
    (keyed : List (Message × ℚ))
    (hraw : raw ≠ []) (hparse : parseAll raw = some msgs)
    (hkey : keyMsgs pts msgs = some keyed)
    (htext : msgs.all isTextMsg = true) :
    ∃ last : Message,
      process_buffer_messages pts raw
        = Except.ok
            (joinNl (((sortKeyed keyed).map Prod.fst).map
              (fun m => escapeQuotes (renderContent m))), last) ∧
      ((sortKeyed keyed).map Prod.fst).length = raw.length ∧
      ((sortKeyed keyed).map Prod.fst).Perm msgs ∧
      (∀ m ∈ (sortKeyed keyed).map Prod.fst,
        MsgContent.text (renderContent m) = m.content) ∧
      (∀ (m : Message) (ic : ImageContent),
        m.content = MsgContent.image ic →
        renderContent m = "[Image: " ++ ic.image_id ++ "]") := by
  obtain ⟨lastp, hlast, hproc, _hsorted, hperm, _hstable, _hmax⟩ :=
    consolidation_sorted_stable pts raw msgs keyed hraw hparse hkey
  have hfst : keyed.map Prod.fst = msgs := keyMsgs_map_fst hkey
  have hpermf : ((sortKeyed keyed).map Prod.fst).Perm msgs := by
    rw [← hfst]
    exact hperm.map Prod.fst
  refine ⟨lastp.1, ?_, ?_, hpermf, ?_, ?_⟩
  · rw [hproc]
    have : renderPayload ((sortKeyed keyed).map Prod.fst)
        = joinNl (((sortKeyed keyed).map Prod.fst).map
            (fun m => escapeQuotes (renderContent m))) := by
      rw [renderPayload, escapeQuotes_joinNl, List.map_map]
      rfl
    rw [this]
  · have hsl : (sortKeyed keyed).length = keyed.length :=
      List.length_insertionSort tsLE keyed
    rw [List.length_map, hsl, keyMsgs_length hkey, parseAll_length hparse]
  · intro m hm
    have hmm : m ∈ msgs := hpermf.mem_iff.mp hm
    have ht : isTextMsg m = true := List.all_eq_true.mp htext m hmm
    cases hc : m.content with
    | text s => rw [renderContent, hc]
    | image ic => rw [isTextMsg, hc] at ht; cases ht
  · intro m ic h
    rw [renderContent, h]

/-- Witness for consolidation_round_trip on the three text demo messages
drained in scrambled order. -/
theorem consolidation_round_trip_witness :
    ([some M2demo, some M3demo, some M1demo] : List (Option Message)) ≠ [] ∧
    parseAll [some M2demo, some M3demo, some M1demo]
      = some [M2demo, M3demo, M1demo] ∧
    keyMsgs ptsDemo [M2demo, M3demo, M1demo]
      = some [(M2demo, 1), (M3demo, 2), (M1demo, 0)] ∧
    ([M2demo, M3demo, M1demo] : List Message).all isTextMsg = true ∧
    (∃ last : Message,
      process_buffer_messages ptsDemo [some M2demo, some M3demo, some M1demo]
        = Except.ok
            (joinNl
              (((sortKeyed [(M2demo, 1), (M3demo, 2), (M1demo, 0)]).map
                Prod.fst).map (fun m => escapeQuotes (renderContent m))),
             last) ∧
      ((sortKeyed [(M2demo, 1), (M3demo, 2), (M1demo, 0)]).map
        Prod.fst).length
        = ([some M2demo, some M3demo, some M1demo]
            : List (Option Message)).length ∧
      ((sortKeyed [(M2demo, 1), (M3demo, 2), (M1demo, 0)]).map Prod.fst).Perm
        [M2demo, M3demo, M1demo] ∧
      (∀ m ∈ (sortKeyed [(M2demo, 1), (M3demo, 2), (M1demo, 0)]).map Prod.fst,
        MsgContent.text (renderContent m) = m.content) ∧
      (∀ (m : Message) (ic : ImageContent),
        m.content = MsgContent.image ic →
        renderContent m = "[Image: " ++ ic.image_id ++ "]")) := by
  refine ⟨by decide, by decide, by decide, by decide, ?_⟩
  exact consolidation_round_trip ptsDemo
    [some M2demo, some M3demo, some M1demo] [M2demo, M3demo, M1demo]
    [(M2demo, 1), (M3demo, 2), (M1demo, 0)]
    (by decide) (by decide) (by decide) (by decide)

/-- Claim C5 (code bug evidence): in the interleaving where a racing lpush
of M1 lands between the drain's lrange and its delete, the drain reads
only the pre-existing buffer and the delete leaves an empty buffer — the
pushed message M1 appears in neither, so it is silently lost, violating
the drain-atomicity requirement. -/
theorem drain_race_loses_push :
    (drainRaceRun [some M2demo] M1demo).1 = [some M2demo] ∧
    (drainRaceRun [some M2demo] M1demo).2 = [] ∧
    some M1demo ∉ (drainRaceRun [some M2demo] M1demo).1 ∧
    some M1demo ∉ (drainRaceRun [some M2demo] M1demo).2 := by decide

/-- Claim C6 counterexample: a webhook whose messageType is "image" maps
to a Message whose contentKind is "image" but whose content is a text
string (the empty conversation), so the content shape does not match the
content kind. -/
theorem webhook_image_shape_counterexample :
    (map_webhook_to_message webhookImageDemo).content_type = "image" ∧
    (map_webhook_to_message webhookImageDemo).content = MsgContent.text "" ∧
    shapeMatchesKind (map_webhook_to_message webhookImageDemo) = false := by
  decide

/-- Claim C6 as amended: for every inbound webhook payload, the mapping
produces a Message whose content is always the text string
`conversation or ""`, so the shape matches the contentKind only when the
kind is text; image webhooks yield a text-shaped content. -/
theorem map_webhook_content_always_text (w : WebhookPayload) :
    (map_webhook_to_message w).content
      = MsgContent.text (w.data.message.conversation.getD "") ∧
    isTextMsg (map_webhook_to_message w) = true :=
  ⟨rfl, rfl⟩

/-- Claim C8: a send_message request suspends at most once — exactly once
when the first arbitration says WAIT and never otherwise — re-arbitrates
at most once, and the second arbitration is terminal: when it says WAIT
again the request neither sleeps a second time nor consolidates, so the
added latency is bounded by one debounce window. -/
theorem send_message_single_suspension (pts : String → Option ℚ)
    (chat : String) (m : Message)
    (store1 store2 : Except Unit (List (Option Message))) (now1 now2 : ℚ) :
    ((send_message_trace pts chat m store1 store2 now1 now2).count
        Step.sleepStep
      = if check_message_flow pts chat store1 m now1 = Flow.wait
        then 1 else 0) ∧
    ((send_message_trace pts chat m store1 store2 now1 now2).count
        Step.arbitrate
      = if check_message_flow pts chat store1 m now1 = Flow.wait
        then 2 else 1) ∧
    (send_message_trace pts chat m store1 store2 now1 now2).count
        Step.sleepStep ≤ 1 ∧
    (check_message_flow pts chat store1 m now1 = Flow.wait →
      check_message_flow pts chat store2 m now2 = Flow.wait →
      (send_message_trace pts chat m store1 store2 now1 now2).count
          Step.sleepStep = 1 ∧
      (send_message_trace pts chat m store1 store2 now1 now2).count
          Step.consolidate = 0) := by
  cases h1 : check_message_flow pts chat store1 m now1 <;>
    cases h2 : check_message_flow pts chat store2 m now2 <;>
      simp [send_message_trace, h1, h2, List.count_cons, List.count_nil]

/-- Witness for send_message_single_suspension: both arbitrations of a
demo request say WAIT (the buffered message is 1 and 2 seconds old), so
the trace sleeps exactly once and never consolidates. -/
theorem send_message_single_suspension_witness :
    check_message_flow ptsDemo "c" (Except.ok [some M1demo]) M1demo 1
      = Flow.wait ∧
    check_message_flow ptsDemo "c" (Except.ok [some M1demo]) M1demo 2
      = Flow.wait ∧
    (send_message_trace ptsDemo "c" M1demo (Except.ok [some M1demo])
        (Except.ok [some M1demo]) 1 2).count Step.sleepStep = 1 ∧
    (send_message_trace ptsDemo "c" M1demo (Except.ok [some M1demo])
        (Except.ok [some M1demo]) 1 2).count Step.consolidate = 0 := by
  have hw1 : check_message_flow ptsDemo "c" (Except.ok [some M1demo])
      M1demo 1 = Flow.wait := by
    simp +decide [check_message_flow, parseAll, ptsDemo, M1demo,
      DEBOUNCE_WINDOW] <;> norm_num
  have hw2 : check_message_flow ptsDemo "c" (Except.ok [some M1demo])
      M1demo 2 = Flow.wait := by
    simp +decide [check_message_flow, parseAll, ptsDemo, M1demo,
      DEBOUNCE_WINDOW] <;> norm_num
  have h := (send_message_single_suspension ptsDemo "c" M1demo
    (Except.ok [some M1demo]) (Except.ok [some M1demo]) 1 2).2.2.2 hw1 hw2
  exact ⟨hw1, hw2, h.1, h.2⟩

/-- LRANGE from index 0 to -1 reads the whole list. -/
theorem lrange_zero_neg_one {α : Type} (l : List α) :
    lrange l 0 (-1) = l := by
  simp only [lrange]
  rw [if_neg (by omega : ¬ ((0:Int) < 0)), if_pos (by omega : (-1:Int) < 0)]
  split_ifs with h1
  · exact (List.length_eq_zero.mp (by omega)).symm
  · simp only [Int.toNat_zero, List.drop_zero]
    rw [show (min ((l.length : Int) + -1) ((l.length : Int) - 1) - 0
          + 1).toNat = l.length from by omega,
      List.take_length]

/-- LRANGE from index 0 to a nonnegative stop index reads the first
stop + 1 elements (clamped at the list length). -/
theorem lrange_zero_of_nonneg {α : Type} (l : List α) (stop : Int)
    (h : 0 ≤ stop) :
    lrange l 0 stop = l.take (stop.toNat + 1) := by
  simp only [lrange]
  rw [if_neg (by omega : ¬ ((0:Int) < 0)),
    if_neg (by omega : ¬ (stop : Int) < 0)]
  split_ifs with h1
  · rw [List.length_eq_zero.mp (by omega : l.length = 0)]
    simp
  · simp only [Int.toNat_zero, List.drop_zero]
    by_cases hc : stop ≤ (l.length : Int) - 1
    · rw [min_eq_left hc]
      congr 1
      omega
    · rw [min_eq_right (by omega : (l.length : Int) - 1 ≤ stop)]
      rw [show ((l.length : Int) - 1 - 0 + 1).toNat = l.length from by omega]
      rw [List.take_length, List.take_of_length_le (by omega)]

/-- A successful parse of the whole buffer restricts to every prefix. -/
theorem parseAll_take {raw : List (Option Message)} {msgs : List Message}
    (h : parseAll raw = some msgs) (k : ℕ) :
    parseAll (raw.take k) = some (msgs.take k) := by
  induction raw generalizing msgs k with
  | nil =>
    simp [parseAll] at h
    subst h
    simp [parseAll]
  | cons o rest ih =>
    cases o with
    | none => simp [parseAll] at h
    | some m =>
      simp only [parseAll, Option.map_eq_some'] at h
      obtain ⟨ms, hms, rfl⟩ := h
      cases k with
      | zero => simp [parseAll]
      | succ k2 => simp [parseAll, ih hms k2]

/-- Claim C10: the read endpoint returns, for limit L at least 1, the
first (most recently pushed) L parsed messages — at most L of them — but
for L = 0 the computed stop index L - 1 = -1 denotes the last element, so
the whole buffer is returned instead of zero messages. -/
theorem get_messages_limit_semantics (raw : List (Option Message))
    (msgs : List Message) (L : Int)
    (hparse : parseAll raw = some msgs) :
    (1 ≤ L → get_messages raw L = Except.ok (msgs.take L.toNat) ∧
      (msgs.take L.toNat).length ≤ L.toNat) ∧
    get_messages raw 0 = Except.ok msgs := by
  constructor
  · intro hL
    constructor
    · simp only [get_messages]
      rw [lrange_zero_of_nonneg raw (L - 1) (by omega)]
      rw [show (L - 1).toNat + 1 = L.toNat from by omega]
      rw [parseAll_take hparse]
    · rw [List.length_take]
      exact min_le_left _ _
  · simp only [get_messages]
    rw [show ((0 : Int) - 1) = -1 from by norm_num, lrange_zero_neg_one,
      hparse]

/-- Witness for get_messages_limit_semantics on a two-entry buffer with
limit 1 and limit 0. -/
theorem get_messages_limit_semantics_witness :
    parseAll [some M2demo, some M1demo] = some [M2demo, M1demo] ∧
    (1 : Int) ≤ 1 ∧
    get_messages [some M2demo, some M1demo] 1 = Except.ok [M2demo] ∧
    get_messages [some M2demo, some M1demo] 0
      = Except.ok [M2demo, M1demo] := by
  have h := get_messages_limit_semantics [some M2demo, some M1demo]
    [M2demo, M1demo] 1 (by decide)
  exact ⟨by decide, by norm_num, (h.1 (by norm_num)).1, h.2⟩

end Chat
